import Mathlib

/-!
Verification development for the pharmaceutical MongoDB MCP server
(`pharma_mcp_server.py`). The single substantive operation is
`execute_mongodb_query`: connect, find(query, projection), optional
sort, optional limit, stringify the `_id` of every returned document,
and always close the connection. A static schema resource
(`get_pharma_schema`) returns a hand-authored field table.

The embedding models BSON values (`BVal`), documents as ordered
association lists, and the MongoDB server pipeline
(filter → sort → limit → projection) as executable Lean functions; the
external failure modes of the database client are captured by a
`DbBehavior` oracle so that every exit path of the Python
`try/except/finally` block is represented.
-/

/-- BSON-style values stored in documents: the native ObjectId record
identifier, strings, integers, and null. -/
inductive BVal where
  | null
  | int (n : Int)
  | str (s : String)
  | objectId (hex : String)
deriving DecidableEq, Repr

/-- A document is an ordered association list from field name to value,
mirroring a Python dict's insertion order. -/
abbrev Doc := List (String × BVal)

/-- Three-way comparison derived from a linear order. -/
def cmp3 {α : Type} [LinearOrder α] (x y : α) : Ordering :=
  if x < y then .lt else if y < x then .gt else .eq

theorem cmp3_swap {α : Type} [LinearOrder α] (x y : α) :
    cmp3 x y = (cmp3 y x).swap := by
  unfold cmp3
  rcases lt_trichotomy x y with h | h | h
  · simp [h, not_lt.mpr (le_of_lt h), Ordering.swap]
  · simp [h, lt_irrefl, Ordering.swap]
  · simp [h, not_lt.mpr (le_of_lt h), Ordering.swap]

theorem cmp3_eq_iff {α : Type} [LinearOrder α] (x y : α) :
    cmp3 x y = .eq ↔ x = y := by
  unfold cmp3
  rcases lt_trichotomy x y with h | h | h
  · simp [h]
    exact fun e => absurd e (ne_of_lt h)
  · simp [h, lt_irrefl]
  · simp [h, not_lt.mpr (le_of_lt h)]
    exact fun e => absurd e (ne_of_gt h)

theorem cmp3_lt_iff {α : Type} [LinearOrder α] (x y : α) :
    cmp3 x y = .lt ↔ x < y := by
  unfold cmp3
  rcases lt_trichotomy x y with h | h | h
  · simp [h]
  · simp [h, lt_irrefl]
  · simp [h, not_lt.mpr (le_of_lt h), asymm h]

/-- BSON type rank, used to order values of different types
(null < numbers < strings < ObjectId), following the server's
cross-type sort order. -/
def bvalRank : BVal → Nat
  | .null => 0
  | .int _ => 1
  | .str _ => 2
  | .objectId _ => 3

/-- Modelled from the spec: the external database's three-way comparison
on stored values, used by its `sort` stage; values of different BSON
types compare by type rank, values of the same type by payload. -/
def bvalCmp (a b : BVal) : Ordering :=
  match a, b with
  | .null, .null => .eq
  | .int m, .int n => cmp3 m n
  | .str s, .str t => cmp3 s t
  | .objectId s, .objectId t => cmp3 s t
  | x, y => cmp3 (bvalRank x) (bvalRank y)

theorem bvalCmp_swap (a b : BVal) : bvalCmp a b = (bvalCmp b a).swap := by
  cases a <;> cases b <;> simp only [bvalCmp, bvalRank] <;>
    first
      | rfl
      | exact cmp3_swap _ _

theorem bvalCmp_eq_iff (a b : BVal) : bvalCmp a b = .eq ↔ a = b := by
  cases a <;> cases b <;>
    simp only [bvalCmp, bvalRank, cmp3_eq_iff] <;> simp_all

theorem bvalCmp_lt_trans {a b c : BVal}
    (h1 : bvalCmp a b = .lt) (h2 : bvalCmp b c = .lt) : bvalCmp a c = .lt := by
  cases a <;> cases b <;> cases c <;>
    simp only [bvalCmp, bvalRank, cmp3_lt_iff] at * <;>
    first
      | rfl
      | omega
      | exact lt_trans h1 h2
      | exact absurd h1 (by decide)

/-- The value a document presents for sort key `k`; a missing field
sorts as null, as in the server. -/
def keyOf (d : Doc) (k : String) : BVal := (d.lookup k).getD .null

/-- Per-key comparison honouring the sort direction: a negative
direction (pymongo's DESCENDING, -1) flips the comparison. -/
def effCmp (dir : Int) (x y : BVal) : Ordering :=
  if dir < 0 then (bvalCmp x y).swap else bvalCmp x y

theorem effCmp_swap (dir : Int) (x y : BVal) :
    effCmp dir x y = (effCmp dir y x).swap := by
  unfold effCmp
  by_cases h : dir < 0 <;> simp [h, bvalCmp_swap x y]

theorem effCmp_eq_iff (dir : Int) (x y : BVal) :
    effCmp dir x y = .eq ↔ x = y := by
  unfold effCmp
  by_cases h : dir < 0
  · simp only [h, if_true]
    rw [← bvalCmp_eq_iff x y]
    cases bvalCmp x y <;> simp [Ordering.swap]
  · simp only [h, if_false]
    exact bvalCmp_eq_iff x y

theorem effCmp_lt_trans {dir : Int} {x y z : BVal}
    (h1 : effCmp dir x y = .lt) (h2 : effCmp dir y z = .lt) :
    effCmp dir x z = .lt := by
  unfold effCmp at *
  by_cases h : dir < 0
  · simp only [h, if_true] at *
    have e1 : bvalCmp y x = .lt := by
      rw [bvalCmp_swap y x]
      cases hc : bvalCmp x y <;> simp [hc, Ordering.swap] at h1 ⊢
    have e2 : bvalCmp z y = .lt := by
      rw [bvalCmp_swap z y]
      cases hc : bvalCmp y z <;> simp [hc, Ordering.swap] at h2 ⊢
    have e3 : bvalCmp z x = .lt := bvalCmp_lt_trans e2 e1
    rw [bvalCmp_swap x z, e3]
    rfl
  · simp only [h, if_false] at *
    exact bvalCmp_lt_trans h1 h2

/-- Modelled from the spec: the server's lexicographic document
comparison for a sort specification (ordered list of (field, direction)
pairs). -/
def docCmp : List (String × Int) → Doc → Doc → Ordering
  | [], _, _ => .eq
  | (k, dir) :: rest, a, b =>
    match effCmp dir (keyOf a k) (keyOf b k) with
    | .eq => docCmp rest a b
    | o => o

/-- Boolean "sorts no later than" derived from `docCmp`. -/
def docLeB (s : List (String × Int)) (a b : Doc) : Bool :=
  match docCmp s a b with
  | .gt => false
  | _ => true

theorem docCmp_swap (s : List (String × Int)) (a b : Doc) :
    docCmp s a b = (docCmp s b a).swap := by
  induction s with
  | nil => rfl
  | cons kd rest ih =>
    obtain ⟨k, dir⟩ := kd
    simp only [docCmp]
    rw [effCmp_swap dir (keyOf a k) (keyOf b k)]
    cases effCmp dir (keyOf b k) (keyOf a k) <;> simp [Ordering.swap, ih]

theorem docLeB_total (s : List (String × Int)) (a b : Doc) :
    (docLeB s a b || docLeB s b a) = true := by
  unfold docLeB
  rw [docCmp_swap s a b]
  cases docCmp s b a <;> simp [Ordering.swap]

theorem docLeB_trans (s : List (String × Int)) (a b c : Doc)
    (h1 : docLeB s a b = true) (h2 : docLeB s b c = true) :
    docLeB s a c = true := by
  induction s with
  | nil => rfl
  | cons kd rest ih =>
    obtain ⟨k, dir⟩ := kd
    unfold docLeB at h1 h2 ⊢
    simp only [docCmp] at h1 h2 ⊢
    cases hab : effCmp dir (keyOf a k) (keyOf b k) with
    | gt => rw [hab] at h1; exact absurd h1 (by simp)
    | lt =>
      rw [hab] at h1
      cases hbc : effCmp dir (keyOf b k) (keyOf c k) with
      | gt => rw [hbc] at h2; exact absurd h2 (by simp)
      | lt => rw [effCmp_lt_trans hab hbc]
      | eq =>
        have e : keyOf b k = keyOf c k := (effCmp_eq_iff dir _ _).mp hbc
        rw [← e, hab]
    | eq =>
      have e : keyOf a k = keyOf b k := (effCmp_eq_iff dir _ _).mp hab
      rw [hab] at h1
      cases hbc : effCmp dir (keyOf b k) (keyOf c k) with
      | gt => rw [hbc] at h2; exact absurd h2 (by simp)
      | lt => rw [e, hbc]
      | eq =>
        rw [hbc] at h2
        rw [e, hbc]
        exact ih h1 h2

/-- Insert `x` into `l` before the first element it sorts no later
than (stable insertion). -/
def orderedInsertB {α : Type} (le : α → α → Bool) (x : α) : List α → List α
  | [] => [x]
  | y :: ys => if le x y then x :: y :: ys else y :: orderedInsertB le x ys

/-- Stable insertion sort with a Boolean comparison, the model of the
server's sort stage. -/
def insertionSortB {α : Type} (le : α → α → Bool) : List α → List α
  | [] => []
  | x :: xs => orderedInsertB le x (insertionSortB le xs)

theorem mem_orderedInsertB {α : Type} (le : α → α → Bool) (x : α) (l : List α)
    (z : α) : z ∈ orderedInsertB le x l ↔ z = x ∨ z ∈ l := by
  induction l with
  | nil => simp [orderedInsertB]
  | cons y ys ih =>
    by_cases h : le x y = true
    · simp [orderedInsertB, h]
    · simp only [orderedInsertB, if_neg h, List.mem_cons, ih]
      tauto

theorem mem_insertionSortB {α : Type} (le : α → α → Bool) (l : List α)
    (z : α) : z ∈ insertionSortB le l ↔ z ∈ l := by
  induction l with
  | nil => simp [insertionSortB]
  | cons x xs ih =>
    simp [insertionSortB, mem_orderedInsertB, ih]

theorem length_orderedInsertB {α : Type} (le : α → α → Bool) (x : α)
    (l : List α) : (orderedInsertB le x l).length = l.length + 1 := by
  induction l with
  | nil => rfl
  | cons y ys ih =>
    by_cases h : le x y = true
    · simp [orderedInsertB, h]
    · simp [orderedInsertB, h, ih]

theorem length_insertionSortB {α : Type} (le : α → α → Bool) (l : List α) :
    (insertionSortB le l).length = l.length := by
  induction l with
  | nil => rfl
  | cons x xs ih => simp [insertionSortB, length_orderedInsertB, ih]

theorem pairwise_orderedInsertB {α : Type} (le : α → α → Bool)
    (htot : ∀ a b, (le a b || le b a) = true)
    (htrans : ∀ a b c, le a b = true → le b c = true → le a c = true)
    (x : α) (l : List α) (h : List.Pairwise (fun a b => le a b = true) l) :
    List.Pairwise (fun a b => le a b = true) (orderedInsertB le x l) := by
  induction l with
  | nil => simp [orderedInsertB]
  | cons y ys ih =>
    rcases List.pairwise_cons.mp h with ⟨hy, hys⟩
    by_cases hxy : le x y = true
    · rw [orderedInsertB, if_pos hxy]
      refine List.Pairwise.cons ?_ h
      intro z hz
      rcases List.mem_cons.mp hz with rfl | hz
      · exact hxy
      · exact htrans x y z hxy (hy z hz)
    · rw [orderedInsertB, if_neg hxy]
      refine List.Pairwise.cons ?_ (ih hys)
      intro z hz
      rcases (mem_orderedInsertB le x ys z).mp hz with he | hz
      · rw [he]
        have := htot x y
        rw [Bool.eq_false_iff.mpr hxy] at this
        simpa using this
      · exact hy z hz

theorem sorted_insertionSortB {α : Type} (le : α → α → Bool)
    (htot : ∀ a b, (le a b || le b a) = true)
    (htrans : ∀ a b c, le a b = true → le b c = true → le a c = true)
    (l : List α) :
    List.Pairwise (fun a b => le a b = true) (insertionSortB le l) := by
  induction l with
  | nil => exact List.Pairwise.nil
  | cons x xs ih =>
    exact pairwise_orderedInsertB le htot htrans x _ ih

theorem orderedInsertB_all_false {α : Type} (le : α → α → Bool) (x : α)
    (m : List α) (h : ∀ z ∈ m, le x z = false) :
    orderedInsertB le x m = m ++ [x] := by
  induction m with
  | nil => rfl
  | cons y ys ih =>
    rw [orderedInsertB, if_neg (by simp [h y (List.mem_cons_self y ys)])]
    rw [ih (fun z hz => h z (List.mem_cons_of_mem y hz))]
    rfl

theorem orderedInsertB_append_last {α : Type} (le : α → α → Bool) (x y : α)
    (m : List α) (h : le x y = true) :
    orderedInsertB le x (m ++ [y]) = orderedInsertB le x m ++ [y] := by
  induction m with
  | nil => simp [orderedInsertB, h]
  | cons z zs ih =>
    by_cases hxz : le x z = true
    · simp [orderedInsertB, hxz]
    · simp [orderedInsertB, hxz, ih]

theorem orderedInsertB_reverse {α : Type} (le : α → α → Bool)
    (htrans : ∀ a b c, le a b = true → le b c = true → le a c = true)
    (x : α) (m : List α)
    (hsort : List.Pairwise (fun a b => le a b = true) m)
    (hopp : ∀ z ∈ m, le x z = (!le z x)) :
    orderedInsertB (fun a b => le b a) x m.reverse
      = (orderedInsertB le x m).reverse := by
  induction m with
  | nil => rfl
  | cons y ys ih =>
    rcases List.pairwise_cons.mp hsort with ⟨hy, hys⟩
    by_cases hxy : le x y = true
    · have hall : ∀ z ∈ (y :: ys).reverse, le z x = false := by
        intro z hz
        rw [List.mem_reverse] at hz
        rcases List.mem_cons.mp hz with rfl | hz
        · have := hopp z (List.mem_cons_self z ys)
          rw [hxy] at this
          exact Bool.not_eq_true _ ▸ by simpa using this.symm
        · have hxz : le x z = true := htrans x y z hxy (hy z hz)
          have := hopp z (List.mem_cons_of_mem y hz)
          rw [hxz] at this
          exact Bool.not_eq_true _ ▸ by simpa using this.symm
      rw [orderedInsertB_all_false (fun a b => le b a) x (y :: ys).reverse hall]
      rw [orderedInsertB, if_pos hxy, List.reverse_cons, List.reverse_cons,
        List.reverse_cons]
    · have hyx : le y x = true := by
        have := hopp y (List.mem_cons_self y ys)
        rw [Bool.eq_false_iff.mpr hxy] at this
        simpa using this.symm
      rw [List.reverse_cons,
        orderedInsertB_append_last (fun a b => le b a) x y ys.reverse hyx,
        ih hys (fun z hz => hopp z (List.mem_cons_of_mem y hz)),
        orderedInsertB, if_neg hxy, List.reverse_cons]

theorem insertionSortB_reverse {α : Type} (le : α → α → Bool)
    (htot : ∀ a b, (le a b || le b a) = true)
    (htrans : ∀ a b c, le a b = true → le b c = true → le a c = true)
    (l : List α)
    (hopp : List.Pairwise (fun a b => le a b = (!le b a)) l) :
    insertionSortB (fun a b => le b a) l = (insertionSortB le l).reverse := by
  induction l with
  | nil => rfl
  | cons x xs ih =>
    rcases List.pairwise_cons.mp hopp with ⟨hx, hxs⟩
    rw [insertionSortB, insertionSortB, ih hxs]
    exact orderedInsertB_reverse le htrans x (insertionSortB le xs)
      (sorted_insertionSortB le htot htrans xs)
      (fun z hz => hx z ((mem_insertionSortB le xs z).mp hz))

/-- Modelled from the spec: the external database's matching of a flat
equality filter against a document; an empty filter is the
match-everything criteria. The server receives the caller's filter
verbatim (`collection.find(query, projection)` passes it through with
no validation or rewriting). -/
def matchesFilter (q : List (String × BVal)) (d : Doc) : Bool :=
  q.all (fun kv => d.lookup kv.1 == some kv.2)

/-- Modelled from the spec: whether the server's projection keeps field
`k`. A projection with any non-`_id` field mapped to a nonzero flag is
an inclusion projection (only listed fields plus `_id`, unless `_id` is
explicitly zeroed); otherwise it is an exclusion projection (all fields
except the zeroed ones). -/
def projKeep (p : List (String × Int)) (k : String) : Bool :=
  if p.any (fun kv => !(kv.1 == "_id") && !(kv.2 == 0)) then
    if k == "_id" then !(((p.lookup "_id").getD 1) == 0)
    else !(((p.lookup k).getD 0) == 0)
  else !(((p.lookup k).getD 1) == 0)

/-- Modelled from the spec: the server applies the projection to each
returned document; `none` (Python `None`) leaves the document intact. -/
def applyProjection : Option (List (String × Int)) → Doc → Doc
  | none, d => d
  | some p, d => d.filter (fun kv => projKeep p kv.1)

/-- The server's sort stage: stable sort of the matched documents by
the lexicographic key order of the sort specification. -/
def mongoSort (s : List (String × Int)) (l : List Doc) : List Doc :=
  insertionSortB (docLeB s) l

/-- Python `str(...)` of a stored value, as used by
`doc['_id'] = str(doc['_id'])`; `str` of an ObjectId is its 24-character
hex string, which the model carries as the ObjectId's payload. -/
def strOfBVal : BVal → String
  | .null => "None"
  | .int n => toString n
  | .str s => s
  | .objectId hex => hex

/-- The successful effect of `doc['_id'] = str(doc['_id'])`: replace the
value stored under `_id` by its string form in place (a Python dict
update keeps the key's position); every other field is untouched. -/
def convOk (d : Doc) : Doc :=
  d.map (fun kv => if kv.1 = "_id" then (kv.1, BVal.str (strOfBVal kv.2)) else kv)

/-- One iteration of the conversion loop: reading `doc['_id']` on a
document with no `_id` key raises `KeyError('_id')`, whose `str()` is
the quoted key name. -/
def convertDoc (d : Doc) : Except String Doc :=
  match d.lookup "_id" with
  | none => .error "\x27_id\x27"
  | some _ => .ok (convOk d)

/-- The `for doc in cursor` loop of lines 71–74: convert each document
in order, aborting at the first failure (accumulated results are
discarded when the loop raises). -/
def convertIds : List Doc → Except String (List Doc)
  | [] => .ok []
  | d :: rest =>
    match convertDoc d with
    | .error e => .error e
    | .ok d2 =>
      match convertIds rest with
      | .error e => .error e
      | .ok r => .ok (d2 :: r)

/-- Default collection name from the Python signature. -/
def DEFAULT_COLLECTION : String := "ims_may_2025"

/-- Default database name from the Python signature. -/
def DEFAULT_DATABASE : String := "pharma_data"

/-- Line 63–64: `if sort:` is false for Python `None` and for an empty
list, so the sort stage runs only for a truthy (non-`None`, non-empty)
sort specification. -/
def sortStage (sort : Option (List (String × Int))) (l : List Doc) :
    List Doc :=
  match sort with
  | some s => if s = [] then l else mongoSort s l
  | none => l

/-- Line 67–68: `if limit:` is false for Python `None` and for `0`, so
the limit stage runs only for a truthy (non-`None`, nonzero) limit;
pymongo treats a negative limit like its magnitude. -/
def limitStage (limit : Option Int) (l : List Doc) : List Doc :=
  match limit with
  | some n => if n = 0 then l else l.take n.natAbs
  | none => l

/-- The documents produced by the database for one call, before `_id`
conversion: filter on the stored collection, then the sort stage, then
the limit stage, then the projection applied to each returned
document. -/
def pipelineDocs (store : String → String → List Doc)
    (query : List (String × BVal)) (collection_name database_name : String)
    (projection : Option (List (String × Int))) (limit : Option Int)
    (sort : Option (List (String × Int))) : List Doc :=
  (limitStage limit
    (sortStage sort
      ((store database_name collection_name).filter
        (fun d => matchesFilter query d)))).map (applyProjection projection)

deriving instance DecidableEq for Except

/-- Observable outcome of one invocation: the returned value or raised
error, whether a client handle was ever constructed, and how many times
`client.close()` ran. -/
structure ExecResult where
  result : Except String (List Doc)
  acquired : Bool
  closes : Nat
deriving DecidableEq, Repr

/-- Oracle for the external client/database behaviour of one call:
`ConnectionFailure` raised while constructing the client (the handle is
never assigned, so `finally` sees `client = None`), `ConnectionFailure`
raised later with a live handle, `OperationFailure` (the database
rejects the query), any other unexpected exception from the client, or
a normal response computed from the modelled stored collections. -/
inductive DbBehavior where
  | connFailEarly (msg : String)
  | connFailLate (msg : String)
  | opFail (msg : String)
  | otherFail (msg : String)
  | respond (store : String → String → List Doc)

/-- Lines 70–76 and the generic `except Exception` arm: run the
conversion loop and wrap a `KeyError`-style fault as
`An error occurred: ...`; the `finally` block closes the live client
exactly once either way. -/
def wrapConv (l : List Doc) : ExecResult :=
  match convertIds l with
  | .ok r => ⟨.ok r, true, 1⟩
  | .error m => ⟨.error ("An error occurred: " ++ m), true, 1⟩

/-- Shallow embedding of `execute_mongodb_query` (lines 46–91).
`try`: connect, resolve database/collection, `find(query, projection)`,
conditional `sort`, conditional `limit`, convert `_id`s.
`except ConnectionFailure`: re-raise as `Failed to connect to MongoDB: ...`.
`except OperationFailure`: re-raise as `MongoDB operation failed: ...`.
`except Exception`: re-raise as `An error occurred: ...`.
`finally`: `if client: client.close()`. -/
def execute_mongodb_query (beh : DbBehavior)
    (query : List (String × BVal)) (collection_name database_name : String)
    (projection : Option (List (String × Int))) (limit : Option Int)
    (sort : Option (List (String × Int))) : ExecResult :=
  match beh with
  | .connFailEarly m => ⟨.error ("Failed to connect to MongoDB: " ++ m), false, 0⟩
  | .connFailLate m => ⟨.error ("Failed to connect to MongoDB: " ++ m), true, 1⟩
  | .opFail m => ⟨.error ("MongoDB operation failed: " ++ m), true, 1⟩
  | .otherFail m => ⟨.error ("An error occurred: " ++ m), true, 1⟩
  | .respond store =>
    wrapConv (pipelineDocs store query collection_name database_name
      projection limit sort)

/-- Shallow embedding of the static schema resource `get_pharma_schema`
(lines 95–113): a hand-authored table of field name to (type,
description), returned as a literal; the parameter stands for the
database state the process could in principle observe, which the
function ignores. -/
def get_pharma_schema (_store : String → String → List Doc) :
    List (String × String × String) :=
  [
    ("Dosage Form", "str", "Product form (e.g., 'Capsule', 'Tablet', 'Tablet Extended Release')"),
    ("NDC -TRIM", "int", "National Drug Code identifiers (numeric)"),
    ("Corporation", "str", "Manufacturing corporation names"),
    ("Manufacturer", "str", "Manufacturer names"),
    ("Brand/Generic", "str", "Classification ('Brand', 'Generic', 'OTHER')"),
    ("Rx Status", "str", "Prescription status ('Rx', 'OTC')"),
    ("Strength", "str", "Drug strength/dosage (e.g., '600MG-800U', 'N/A')"),
    ("Pack Size", "int", "Package size (numeric, typically 1)"),
    ("Pack Quantity", "int", "Quantity per package (numeric)"),
    ("Combined Molecule", "str", "Active pharmaceutical ingredients"),
    ("MAT  Mar 2025_Sales $", "str", "Moving Annual Total sales (March 2025)"),
    ("MAT  Mar 2025_Units", "int", "Moving Annual Total units (March 2025)"),
    ("MAT  Mar 2025_Eaches", "int", "Moving Annual Total eaches (March 2025)"),
    ("MAT  Mar 2025_NSP Ext. Units", "str", "Moving Annual Total NSP Extended Units (March 2025)")
  ]

theorem map_applyProjection_none (l : List Doc) :
    l.map (applyProjection none) = l := by
  induction l with
  | nil => rfl
  | cons d ds ih => simp [applyProjection, ih]

theorem convOk_cons (k1 : String) (v1 : BVal) (rest : Doc) :
    convOk ((k1, v1) :: rest)
      = (if k1 = "_id" then (k1, BVal.str (strOfBVal v1)) else (k1, v1))
        :: convOk rest := rfl

theorem convOk_lookup_ne (d : Doc) (k : String) (hk : k ≠ "_id") :
    (convOk d).lookup k = d.lookup k := by
  induction d with
  | nil => rfl
  | cons kv rest ih =>
    obtain ⟨k1, v1⟩ := kv
    rw [convOk_cons]
    by_cases h1 : k1 = "_id"
    · subst h1
      rw [if_pos rfl, List.lookup_cons, List.lookup_cons,
        show (k == "_id") = false from beq_eq_false_iff_ne.mpr hk]
      exact ih
    · rw [if_neg h1, List.lookup_cons, List.lookup_cons]
      by_cases hk1 : k = k1
      · subst hk1
        rw [show (k == k) = true from beq_self_eq_true k]
      · rw [show (k == k1) = false from beq_eq_false_iff_ne.mpr hk1]
        exact ih

theorem convOk_lookup_id (d : Doc) (v : BVal) (h : d.lookup "_id" = some v) :
    (convOk d).lookup "_id" = some (BVal.str (strOfBVal v)) := by
  induction d with
  | nil => simp at h
  | cons kv rest ih =>
    obtain ⟨k1, v1⟩ := kv
    rw [convOk_cons]
    by_cases h1 : k1 = "_id"
    · subst h1
      rw [List.lookup_cons, show ("_id" == "_id") = true from beq_self_eq_true _]
        at h
      injection h with hv
      subst hv
      rw [if_pos rfl, List.lookup_cons,
        show ("_id" == "_id") = true from beq_self_eq_true _]
    · have h1f : ("_id" == k1) = false :=
        beq_eq_false_iff_ne.mpr (fun e => h1 e.symm)
      rw [List.lookup_cons, h1f] at h
      rw [if_neg h1, List.lookup_cons, h1f]
      exact ih h

theorem convOk_keys (d : Doc) : (convOk d).map Prod.fst = d.map Prod.fst := by
  induction d with
  | nil => rfl
  | cons kv rest ih =>
    obtain ⟨k1, v1⟩ := kv
    rw [convOk_cons]
    by_cases h1 : k1 = "_id"
    · rw [if_pos h1]
      simpa using ih
    · rw [if_neg h1]
      simpa using ih

theorem convertIds_ok (l : List Doc)
    (h : ∀ d ∈ l, (d.lookup "_id").isSome = true) :
    convertIds l = .ok (l.map convOk) := by
  induction l with
  | nil => rfl
  | cons d rest ih =>
    have hd := h d (List.mem_cons_self d rest)
    rw [Option.isSome_iff_exists] at hd
    obtain ⟨v, hv⟩ := hd
    simp [convertIds, convertDoc, hv,
      ih (fun z hz => h z (List.mem_cons_of_mem d hz))]

theorem convertIds_ok_inv (l : List Doc) (r : List Doc)
    (h : convertIds l = .ok r) :
    r = l.map convOk ∧ ∀ d ∈ l, ∃ v, d.lookup "_id" = some v := by
  induction l generalizing r with
  | nil =>
    refine ⟨?_, by simp⟩
    have : (Except.ok [] : Except String (List Doc)) = .ok r := h
    simpa using this.symm
  | cons d rest ih =>
    unfold convertIds at h
    cases hc : convertDoc d with
    | error e => rw [hc] at h; exact absurd h (by simp)
    | ok d2 =>
      rw [hc] at h
      cases hr : convertIds rest with
      | error e => rw [hr] at h; exact absurd h (by simp)
      | ok rr =>
        rw [hr] at h
        have hrr := ih rr hr
        have hd2 : d2 = convOk d ∧ ∃ v, d.lookup "_id" = some v := by
          unfold convertDoc at hc
          cases hv : d.lookup "_id" with
          | none => rw [hv] at hc; exact absurd hc (by simp)
          | some v =>
            rw [hv] at hc
            refine ⟨?_, v, rfl⟩
            injection hc with h2
            exact h2.symm
        constructor
        · have : d2 :: rr = r := by
            injection h with h3
          rw [← this, hd2.1, hrr.1]
          rfl
        · intro z hz
          rcases List.mem_cons.mp hz with he | hz2
          · rw [he]; exact hd2.2
          · exact hrr.2 z hz2

theorem convertIds_append_error (pre : List Doc) (bad : Doc) (rest : List Doc)
    (c : List Doc) (m : String) (h1 : convertIds pre = .ok c)
    (h2 : convertDoc bad = .error m) :
    convertIds (pre ++ bad :: rest) = .error m := by
  induction pre generalizing c with
  | nil => simp [convertIds, h2]
  | cons d ds ih =>
    rw [List.cons_append]
    unfold convertIds at h1
    cases hc : convertDoc d with
    | error e => rw [hc] at h1; exact absurd h1 (by simp)
    | ok d2 =>
      rw [hc] at h1
      cases hr : convertIds ds with
      | error e => rw [hr] at h1; exact absurd h1 (by simp)
      | ok rr =>
        show convertIds (d :: (ds ++ bad :: rest)) = .error m
        unfold convertIds
        rw [hc, ih rr hr]

theorem lookup_filter_eq_none (d : Doc) (pr : String → Bool) (k : String)
    (h : pr k = false) :
    (d.filter (fun kv => pr kv.1)).lookup k = none := by
  induction d with
  | nil => rfl
  | cons kv rest ih =>
    obtain ⟨k1, v1⟩ := kv
    by_cases hp : pr k1 = true
    · rw [List.filter_cons_of_pos (by simpa using hp), List.lookup_cons]
      have hk1 : (k == k1) = false := by
        refine beq_eq_false_iff_ne.mpr ?_
        intro e
        rw [e, hp] at h
        exact absurd h (by simp)
      rw [hk1]
      exact ih
    · rw [List.filter_cons_of_neg (by simpa using hp)]
      exact ih

theorem applyProjection_some (p : List (String × Int)) (d : Doc) :
    applyProjection (some p) d = d.filter (fun kv => projKeep p kv.1) := rfl

theorem keys_filter_projKeep (p : List (String × Int)) (d : Doc) :
    (applyProjection (some p) d).map Prod.fst
      = (d.map Prod.fst).filter (projKeep p) := by
  rw [applyProjection_some]
  induction d with
  | nil => rfl
  | cons kv rest ih =>
    obtain ⟨k1, v1⟩ := kv
    by_cases hp : projKeep p k1 = true
    · rw [List.filter_cons_of_pos (by simpa using hp), List.map_cons,
        List.map_cons, List.filter_cons_of_pos (by simpa using hp), ih]
    · rw [List.filter_cons_of_neg (by simpa using hp), List.map_cons,
        List.filter_cons_of_neg (by simpa using hp), ih]

theorem convertIds_head_error (l : List Doc) (hne : l ≠ [])
    (hnone : ∀ d ∈ l, d.lookup "_id" = none) :
    convertIds l = .error "\x27_id\x27" := by
  cases l with
  | nil => exact absurd rfl hne
  | cons d rest =>
    have hd := hnone d (List.mem_cons_self d rest)
    simp [convertIds, convertDoc, hd]

theorem length_mongoSort (s : List (String × Int)) (l : List Doc) :
    (mongoSort s l).length = l.length :=
  length_insertionSortB (docLeB s) l

/-- A sample stored document with an ObjectId `_id`. -/
def sampleDoc1 : Doc :=
  [("_id", BVal.objectId "665f1a2b3c4d5e6f70819203"),
   ("Brand/Generic", BVal.str "Generic"), ("Pack Quantity", BVal.int 30)]

/-- A second sample stored document. -/
def sampleDoc2 : Doc :=
  [("_id", BVal.objectId "665f1a2b3c4d5e6f70819204"),
   ("Brand/Generic", BVal.str "Generic"), ("Pack Quantity", BVal.int 90)]

/-- A third sample stored document. -/
def sampleDoc3 : Doc :=
  [("_id", BVal.objectId "665f1a2b3c4d5e6f70819205"),
   ("Brand/Generic", BVal.str "Brand"), ("Pack Quantity", BVal.int 60)]

/-- A modelled database state holding three sample documents in every
database/collection pair. -/
def sampleStore : String → String → List Doc :=
  fun _ _ => [sampleDoc1, sampleDoc2, sampleDoc3]

/-- A modelled database state whose second stored document has no `_id`
field, which makes the conversion loop raise `KeyError`. -/
def badStore : String → String → List Doc :=
  fun _ _ => [sampleDoc1, [("x", BVal.int 2)]]

/-- A modelled database state with no documents at all. -/
def emptyStore : String → String → List Doc := fun _ _ => []

/-- C1: whenever an invocation of `execute_mongodb_query` acquires a
connection handle (a `MongoClient` is constructed, so `client` is not
`None` in the `finally` block), that connection is closed exactly once
before the call returns or its raised error reaches the caller, on
every exit path: normal success, database rejection of the query, and
any unexpected fault during cursor consumption or identifier
conversion. -/
theorem C1_connection_released_once (beh : DbBehavior)
    (query : List (String × BVal)) (cn dn : String)
    (proj : Option (List (String × Int))) (lim : Option Int)
    (srt : Option (List (String × Int)))
    (h : (execute_mongodb_query beh query cn dn proj lim srt).acquired = true) :
    (execute_mongodb_query beh query cn dn proj lim srt).closes = 1 := by
  cases beh with
  | connFailEarly m => exact absurd h (by simp [execute_mongodb_query])
  | connFailLate m => rfl
  | opFail m => rfl
  | otherFail m => rfl
  | respond store =>
    cases hc : convertIds (pipelineDocs store query cn dn proj lim srt) with
    | ok r => simp [execute_mongodb_query, wrapConv, hc]
    | error e => simp [execute_mongodb_query, wrapConv, hc]

/-- C1 witness: a database rejection acquires the handle and closes it
exactly once. -/
theorem C1_witness :
    (execute_mongodb_query (.opFail "boom") [] "c" "d" none none
      none).acquired = true ∧
    (execute_mongodb_query (.opFail "boom") [] "c" "d" none none
      none).closes = 1 :=
  ⟨rfl, C1_connection_released_once (.opFail "boom") [] "c" "d" none none
    none rfl⟩

/-- C10: the schema resource is a deterministic constant function:
its value is independent of the database state, and it maps exactly the
14 fixed field names, in order, to their static descriptions. -/
theorem C10_schema_static (s1 s2 : String → String → List Doc) :
    get_pharma_schema s1 = get_pharma_schema s2 ∧
    (get_pharma_schema s1).length = 14 ∧
    (get_pharma_schema s1).map Prod.fst
      = ["Dosage Form", "NDC -TRIM", "Corporation", "Manufacturer",
         "Brand/Generic", "Rx Status", "Strength", "Pack Size",
         "Pack Quantity", "Combined Molecule", "MAT  Mar 2025_Sales $",
         "MAT  Mar 2025_Units", "MAT  Mar 2025_Eaches",
         "MAT  Mar 2025_NSP Ext. Units"] :=
  ⟨rfl, rfl, rfl⟩

theorem length_sortStage (srt : Option (List (String × Int)))
    (l : List Doc) : (sortStage srt l).length = l.length := by
  cases srt with
  | none => rfl
  | some s =>
    by_cases hs : s = []
    · simp [sortStage, hs]
    · simp [sortStage, hs, length_mongoSort]

theorem limitStage_some (n : Int) (l : List Doc) :
    limitStage (some n) l = if n = 0 then l else l.take n.natAbs := rfl

theorem limitStage_zero (l : List Doc) :
    limitStage (some 0) l = limitStage none l := by
  simp [limitStage]

/-- C4: the three failure kinds map to three distinct wrappers and
nothing is retried: a connection failure (whether the handle was
constructed or not) surfaces as `Failed to connect to MongoDB: ...`, a
query rejected by the database surfaces as
`MongoDB operation failed: ...` with the database's own text, any other
runtime fault surfaces as `An error occurred: ...`, and a fault-free
response returns the converted documents. -/
theorem C4_error_taxonomy (query : List (String × BVal)) (cn dn : String)
    (proj : Option (List (String × Int))) (lim : Option Int)
    (srt : Option (List (String × Int))) (m e : String)
    (storeE storeR : String → String → List Doc) (r : List Doc)
    (he : convertIds (pipelineDocs storeE query cn dn proj lim srt)
      = .error e)
    (hr : convertIds (pipelineDocs storeR query cn dn proj lim srt)
      = .ok r) :
    (execute_mongodb_query (.connFailEarly m) query cn dn proj lim
        srt).result = .error ("Failed to connect to MongoDB: " ++ m) ∧
    (execute_mongodb_query (.connFailLate m) query cn dn proj lim
        srt).result = .error ("Failed to connect to MongoDB: " ++ m) ∧
    (execute_mongodb_query (.opFail m) query cn dn proj lim srt).result
      = .error ("MongoDB operation failed: " ++ m) ∧
    (execute_mongodb_query (.otherFail m) query cn dn proj lim srt).result
      = .error ("An error occurred: " ++ m) ∧
    (execute_mongodb_query (.respond storeE) query cn dn proj lim
        srt).result = .error ("An error occurred: " ++ e) ∧
    (execute_mongodb_query (.respond storeR) query cn dn proj lim
        srt).result = .ok r := by
  refine ⟨rfl, rfl, rfl, rfl, ?_, ?_⟩
  · simp [execute_mongodb_query, wrapConv, he]
  · simp [execute_mongodb_query, wrapConv, hr]

/-- C4 witness: a faulting store (a stored document with no `_id`) and
a healthy store instantiate the two respond-side hypotheses. -/
theorem C4_witness :
    (execute_mongodb_query (.connFailEarly "boom") [] "c" "d" none none
        none).result = .error ("Failed to connect to MongoDB: " ++ "boom") ∧
    (execute_mongodb_query (.connFailLate "boom") [] "c" "d" none none
        none).result = .error ("Failed to connect to MongoDB: " ++ "boom") ∧
    (execute_mongodb_query (.opFail "boom") [] "c" "d" none none
        none).result = .error ("MongoDB operation failed: " ++ "boom") ∧
    (execute_mongodb_query (.otherFail "boom") [] "c" "d" none none
        none).result = .error ("An error occurred: " ++ "boom") ∧
    (execute_mongodb_query (.respond badStore) [] "c" "d" none none
        none).result = .error ("An error occurred: " ++ "\x27_id\x27") ∧
    (execute_mongodb_query (.respond sampleStore) [] "c" "d" none none
        none).result = .ok ((sampleStore "d" "c").map convOk) :=
  C4_error_taxonomy [] "c" "d" none none none "boom" "\x27_id\x27"
    badStore sampleStore ((sampleStore "d" "c").map convOk)
    (by decide) (by decide)

/-- C3: a positive `limit` caps the number of returned documents at
`limit`, and `limit = 0` is falsy in `if limit:` so the call is
identical to passing no limit at all (every matching document is
returned, not zero documents). -/
theorem C3_limit_semantics (beh : DbBehavior)
    (query : List (String × BVal)) (cn dn : String)
    (proj : Option (List (String × Int)))
    (srt : Option (List (String × Int))) (n : Int) (r : List Doc)
    (hn : 0 < n)
    (h : (execute_mongodb_query beh query cn dn proj (some n) srt).result
      = .ok r) :
    r.length ≤ n.toNat ∧
    execute_mongodb_query beh query cn dn proj (some 0) srt
      = execute_mongodb_query beh query cn dn proj none srt := by
  constructor
  · cases beh with
    | connFailEarly m => exact absurd h (by simp [execute_mongodb_query])
    | connFailLate m => exact absurd h (by simp [execute_mongodb_query])
    | opFail m => exact absurd h (by simp [execute_mongodb_query])
    | otherFail m => exact absurd h (by simp [execute_mongodb_query])
    | respond store =>
      cases hc : convertIds (pipelineDocs store query cn dn proj (some n)
          srt) with
      | error e =>
        have : (execute_mongodb_query (.respond store) query cn dn proj
            (some n) srt).result = .error ("An error occurred: " ++ e) := by
          simp [execute_mongodb_query, wrapConv, hc]
        rw [this] at h
        exact absurd h (by simp)
      | ok rr =>
        have hres : (execute_mongodb_query (.respond store) query cn dn proj
            (some n) srt).result = .ok rr := by
          simp [execute_mongodb_query, wrapConv, hc]
        rw [hres] at h
        have hr : rr = r := by simpa using h
        have hmap := (convertIds_ok_inv _ rr hc).1
        have hlen : (pipelineDocs store query cn dn proj (some n)
            srt).length ≤ n.natAbs := by
          unfold pipelineDocs
          rw [List.length_map, limitStage_some, if_neg (by omega : ¬ n = 0)]
          simp
        have : rr.length ≤ n.natAbs := by
          rw [hmap, List.length_map]
          exact hlen
        rw [← hr]
        omega
  · cases beh with
    | connFailEarly m => rfl
    | connFailLate m => rfl
    | opFail m => rfl
    | otherFail m => rfl
    | respond store =>
      show wrapConv (pipelineDocs store query cn dn proj (some 0) srt)
        = wrapConv (pipelineDocs store query cn dn proj none srt)
      unfold pipelineDocs
      rw [limitStage_zero]

/-- C3 witness: a limit of 2 on a three-document collection returns at
most 2 documents, and a limit of 0 behaves like no limit. -/
theorem C3_witness :
    ([sampleDoc1, sampleDoc2].map convOk).length ≤ (2 : Int).toNat ∧
    execute_mongodb_query (.respond sampleStore) [] "c" "d" none (some 0)
      none = execute_mongodb_query (.respond sampleStore) [] "c" "d" none
      none none :=
  C3_limit_semantics (.respond sampleStore) [] "c" "d" none none 2
    ([sampleDoc1, sampleDoc2].map convOk) (by decide) (by decide)

theorem sortStage_some (s : List (String × Int)) (l : List Doc) :
    sortStage (some s) l = if s = [] then l else mongoSort s l := rfl

theorem filter_matchesFilter_nil (l : List Doc) :
    l.filter (fun d => matchesFilter [] d) = l := by
  simp [matchesFilter]

/-- C6: an empty filter is the match-everything criteria and is passed
to the database verbatim, so the call returns every stored document of
the collection (converted), capped by a truthy limit. -/
theorem C6_empty_filter (store : String → String → List Doc)
    (cn dn : String) (n : Int) (hn : n ≠ 0)
    (hconv : ∀ d ∈ store dn cn, (d.lookup "_id").isSome = true) :
    (∀ d : Doc, matchesFilter [] d = true) ∧
    (execute_mongodb_query (.respond store) [] cn dn none none none).result
      = .ok ((store dn cn).map convOk) ∧
    (execute_mongodb_query (.respond store) [] cn dn none (some n)
        none).result = .ok (((store dn cn).take n.natAbs).map convOk) := by
  refine ⟨fun d => rfl, ?_, ?_⟩
  · have hpl : pipelineDocs store [] cn dn none none none = store dn cn := by
      unfold pipelineDocs
      rw [map_applyProjection_none, filter_matchesFilter_nil]
      rfl
    show (wrapConv (pipelineDocs store [] cn dn none none none)).result = _
    rw [hpl]
    unfold wrapConv
    rw [convertIds_ok _ hconv]
  · have hpl : pipelineDocs store [] cn dn none (some n) none
        = (store dn cn).take n.natAbs := by
      unfold pipelineDocs
      rw [map_applyProjection_none, filter_matchesFilter_nil,
        limitStage_some, if_neg hn]
      rfl
    show (wrapConv (pipelineDocs store [] cn dn none (some n) none)).result
      = _
    rw [hpl]
    unfold wrapConv
    rw [convertIds_ok _
      (fun d hd => hconv d (List.take_subset n.natAbs (store dn cn) hd))]

/-- C6 witness: the three-document store with an empty filter returns
all three documents, or the first two when `limit = 2`. -/
theorem C6_witness :
    (∀ d : Doc, matchesFilter [] d = true) ∧
    (execute_mongodb_query (.respond sampleStore) [] "c" "d" none none
        none).result = .ok ((sampleStore "d" "c").map convOk) ∧
    (execute_mongodb_query (.respond sampleStore) [] "c" "d" none (some 2)
        none).result = .ok (((sampleStore "d" "c").take
          (2 : Int).natAbs).map convOk) :=
  C6_empty_filter sampleStore "c" "d" 2 (by decide) (by decide)

/-- C7: a failure at any point of the conversion loop discards every
document accumulated before it: even when a prefix of the cursor
converts successfully, the caller receives only the wrapped error and
never a partial result list. -/
theorem C7_no_partial_results (store : String → String → List Doc)
    (query : List (String × BVal)) (cn dn : String)
    (proj : Option (List (String × Int))) (lim : Option Int)
    (srt : Option (List (String × Int))) (pre : List Doc) (bad : Doc)
    (rest c : List Doc) (m : String)
    (hsplit : pipelineDocs store query cn dn proj lim srt
      = pre ++ bad :: rest)
    (hpre : convertIds pre = .ok c)
    (hbad : convertDoc bad = .error m) :
    execute_mongodb_query (.respond store) query cn dn proj lim srt
      = ⟨.error ("An error occurred: " ++ m), true, 1⟩ ∧
    (execute_mongodb_query (.respond store) query cn dn proj lim
        srt).result ≠ .ok c := by
  have herr : convertIds (pipelineDocs store query cn dn proj lim srt)
      = .error m := by
    rw [hsplit]
    exact convertIds_append_error pre bad rest c m hpre hbad
  have h1 : execute_mongodb_query (.respond store) query cn dn proj lim srt
      = ⟨.error ("An error occurred: " ++ m), true, 1⟩ := by
    show wrapConv _ = _
    unfold wrapConv
    rw [herr]
  exact ⟨h1, by rw [h1]; simp⟩

/-- C7 witness: a store whose second document has no `_id`: the first
document converts, then the loop raises and the converted prefix is
discarded. -/
theorem C7_witness :
    execute_mongodb_query (.respond badStore) [] "c" "d" none none none
      = ⟨.error ("An error occurred: " ++ "\x27_id\x27"), true, 1⟩ ∧
    (execute_mongodb_query (.respond badStore) [] "c" "d" none none
        none).result ≠ .ok [convOk sampleDoc1] :=
  C7_no_partial_results badStore [] "c" "d" none none none [sampleDoc1]
    [("x", BVal.int 2)] [] [convOk sampleDoc1] "\x27_id\x27"
    (by decide) (by decide) (by decide)

/-- C2: every document of a successful result is the stored document
with `_id` replaced in place by the string form of the native
identifier (never the native type), and every field other than `_id`
passes through unmodified. -/
theorem C2_id_serialized_as_string (beh : DbBehavior)
    (query : List (String × BVal)) (cn dn : String)
    (proj : Option (List (String × Int))) (lim : Option Int)
    (srt : Option (List (String × Int))) (r : List Doc)
    (h : (execute_mongodb_query beh query cn dn proj lim srt).result
      = .ok r) :
    ∃ store, beh = .respond store ∧
      r = (pipelineDocs store query cn dn proj lim srt).map convOk ∧
      ∀ d ∈ pipelineDocs store query cn dn proj lim srt,
        (∃ v, d.lookup "_id" = some v ∧
          (convOk d).lookup "_id" = some (BVal.str (strOfBVal v))) ∧
        ∀ k, k ≠ "_id" → (convOk d).lookup k = d.lookup k := by
  cases beh with
  | connFailEarly m => exact absurd h (by simp [execute_mongodb_query])
  | connFailLate m => exact absurd h (by simp [execute_mongodb_query])
  | opFail m => exact absurd h (by simp [execute_mongodb_query])
  | otherFail m => exact absurd h (by simp [execute_mongodb_query])
  | respond store =>
    cases hc : convertIds (pipelineDocs store query cn dn proj lim srt) with
    | error e =>
      have : (execute_mongodb_query (.respond store) query cn dn proj lim
          srt).result = .error ("An error occurred: " ++ e) := by
        simp [execute_mongodb_query, wrapConv, hc]
      rw [this] at h
      exact absurd h (by simp)
    | ok rr =>
      have hres : (execute_mongodb_query (.respond store) query cn dn proj
          lim srt).result = .ok rr := by
        simp [execute_mongodb_query, wrapConv, hc]
      rw [hres] at h
      obtain ⟨hmap, hids⟩ := convertIds_ok_inv _ rr hc
      have hr : r = rr := by
        have := h.symm
        simpa using this
      refine ⟨store, rfl, by rw [hr, hmap], ?_⟩
      intro d hd
      obtain ⟨v, hv⟩ := hids d hd
      exact ⟨⟨v, hv, convOk_lookup_id d v hv⟩,
        fun k hk => convOk_lookup_ne d k hk⟩

/-- C2 witness: the sample store's successful result. -/
theorem C2_witness :
    ∃ store, DbBehavior.respond sampleStore = .respond store ∧
      (pipelineDocs sampleStore [] "c" "d" none none none).map convOk
        = (pipelineDocs store [] "c" "d" none none none).map convOk ∧
      ∀ d ∈ pipelineDocs store [] "c" "d" none none none,
        (∃ v, d.lookup "_id" = some v ∧
          (convOk d).lookup "_id" = some (BVal.str (strOfBVal v))) ∧
        ∀ k, k ≠ "_id" → (convOk d).lookup k = d.lookup k :=
  C2_id_serialized_as_string (.respond sampleStore) [] "c" "d" none none
    none ((pipelineDocs sampleStore [] "c" "d" none none none).map convOk)
    (by decide)

/-- C8: with no projection every stored field of a document is
returned; with a projection, the field names of every returned document
are exactly the stored field names the projection keeps (the included
fields of an inclusion projection, or all fields minus the excluded
ones of an exclusion projection); `_id` conversion never changes the
field set. -/
theorem C8_projection_semantics (store : String → String → List Doc)
    (query : List (String × BVal)) (cn dn : String)
    (proj : Option (List (String × Int))) (lim : Option Int)
    (srt : Option (List (String × Int))) (p : List (String × Int))
    (r : List Doc)
    (h : (execute_mongodb_query (.respond store) query cn dn proj lim
      srt).result = .ok r) :
    r = (pipelineDocs store query cn dn proj lim srt).map convOk ∧
    pipelineDocs store query cn dn (some p) lim srt
      = (pipelineDocs store query cn dn none lim srt).map
          (applyProjection (some p)) ∧
    (∀ d : Doc, applyProjection none d = d) ∧
    (∀ d : Doc, (applyProjection (some p) d).map Prod.fst
      = (d.map Prod.fst).filter (projKeep p)) ∧
    (∀ d : Doc, (convOk d).map Prod.fst = d.map Prod.fst) := by
  refine ⟨?_, ?_, fun d => rfl, fun d => keys_filter_projKeep p d,
    fun d => convOk_keys d⟩
  · cases hc : convertIds (pipelineDocs store query cn dn proj lim srt) with
    | error e =>
      have : (execute_mongodb_query (.respond store) query cn dn proj lim
          srt).result = .error ("An error occurred: " ++ e) := by
        simp [execute_mongodb_query, wrapConv, hc]
      rw [this] at h
      exact absurd h (by simp)
    | ok rr =>
      have hres : (execute_mongodb_query (.respond store) query cn dn proj
          lim srt).result = .ok rr := by
        simp [execute_mongodb_query, wrapConv, hc]
      rw [hres] at h
      have hr : r = rr := by
        have := h.symm
        simpa using this
      rw [hr, (convertIds_ok_inv _ rr hc).1]
  · unfold pipelineDocs
    rw [map_applyProjection_none]

/-- C8 witness: the sample store with no projection, checked against
the inclusion projection keeping only `Pack Quantity`. -/
theorem C8_witness :
    (pipelineDocs sampleStore [] "c" "d" none none none).map convOk
      = (pipelineDocs sampleStore [] "c" "d" none none none).map convOk ∧
    pipelineDocs sampleStore [] "c" "d" (some [("Pack Quantity", 1)]) none
        none
      = (pipelineDocs sampleStore [] "c" "d" none none none).map
          (applyProjection (some [("Pack Quantity", 1)])) ∧
    (∀ d : Doc, applyProjection none d = d) ∧
    (∀ d : Doc, (applyProjection (some [("Pack Quantity", 1)]) d).map
        Prod.fst
      = (d.map Prod.fst).filter (projKeep [("Pack Quantity", 1)])) ∧
    (∀ d : Doc, (convOk d).map Prod.fst = d.map Prod.fst) :=
  C8_projection_semantics sampleStore [] "c" "d" none none none
    [("Pack Quantity", 1)]
    ((pipelineDocs sampleStore [] "c" "d" none none none).map convOk)
    (by decide)

/-- C9: a projection that excludes `_id` (such as the exclusion
projection `_id: 0`) makes `doc['_id']` raise `KeyError` on the first
matching document, so the whole call fails with the generic
`An error occurred: '_id'` message and returns no documents, even
though the database executed the query successfully. -/
theorem C9_id_excluding_projection_fails
    (store : String → String → List Doc) (query : List (String × BVal))
    (cn dn : String) (lim : Option Int)
    (srt : Option (List (String × Int)))
    (hmatch : (store dn cn).filter (fun d => matchesFilter query d) ≠ []) :
    execute_mongodb_query (.respond store) query cn dn (some [("_id", 0)])
        lim srt
      = ⟨.error "An error occurred: \x27_id\x27", true, 1⟩ := by
  have hs : (sortStage srt ((store dn cn).filter
      (fun d => matchesFilter query d))).length ≠ 0 := by
    rw [length_sortStage]
    intro h0
    exact hmatch (List.length_eq_zero.mp h0)
  have hl : (limitStage lim (sortStage srt ((store dn cn).filter
      (fun d => matchesFilter query d)))).length ≠ 0 := by
    cases lim with
    | none => exact hs
    | some n =>
      rw [limitStage_some]
      by_cases h0 : n = 0
      · rw [if_pos h0]; exact hs
      · rw [if_neg h0, List.length_take]
        have hna : n.natAbs ≠ 0 := by omega
        omega
  have hne : pipelineDocs store query cn dn (some [("_id", 0)]) lim srt
      ≠ [] := by
    unfold pipelineDocs
    intro h0
    rw [List.map_eq_nil_iff] at h0
    rw [h0] at hl
    exact hl rfl
  have hnone : ∀ d ∈ pipelineDocs store query cn dn (some [("_id", 0)]) lim
      srt, d.lookup "_id" = none := by
    intro d hd
    unfold pipelineDocs at hd
    rw [List.mem_map] at hd
    obtain ⟨x, hx, hdx⟩ := hd
    rw [← hdx, applyProjection_some]
    exact lookup_filter_eq_none x (projKeep [("_id", 0)]) "_id" (by decide)
  have herr := convertIds_head_error _ hne hnone
  show wrapConv _ = _
  unfold wrapConv
  rw [herr]
  rfl

/-- C9 witness: excluding `_id` over the sample store fails the call. -/
theorem C9_witness :
    execute_mongodb_query (.respond sampleStore) [] "c" "d"
        (some [("_id", 0)]) none none
      = ⟨.error "An error occurred: \x27_id\x27", true, 1⟩ :=
  C9_id_excluding_projection_fails sampleStore [] "c" "d" none none
    (by decide)

theorem effCmp_one (x y : BVal) : effCmp 1 x y = bvalCmp x y := by
  unfold effCmp
  rw [if_neg (by decide : ¬ (1 : Int) < 0)]

theorem effCmp_neg_one (x y : BVal) :
    effCmp (-1) x y = (bvalCmp x y).swap := by
  unfold effCmp
  rw [if_pos (by decide : (-1 : Int) < 0)]

theorem docCmp_single_neg (f : String) (a b : Doc) :
    docCmp [(f, -1)] a b = docCmp [(f, 1)] b a := by
  simp only [docCmp, effCmp_neg_one, effCmp_one]
  rw [bvalCmp_swap (keyOf b f) (keyOf a f)]

theorem docLeB_single_neg (f : String) (a b : Doc) :
    docLeB [(f, -1)] a b = docLeB [(f, 1)] b a := by
  unfold docLeB
  rw [docCmp_single_neg]

theorem docLeB_single_opp (f : String) (a b : Doc)
    (h : bvalCmp (keyOf a f) (keyOf b f) ≠ .eq) :
    docLeB [(f, 1)] a b = (!docLeB [(f, 1)] b a) := by
  unfold docLeB
  simp only [docCmp, effCmp_one]
  rw [bvalCmp_swap (keyOf b f) (keyOf a f)]
  cases hc : bvalCmp (keyOf a f) (keyOf b f) with
  | lt => rfl
  | gt => rfl
  | eq => exact absurd hc h

/-- C5: with a (truthy) sort specification and a truthy limit `n`, the
sort is applied before the limit — the call returns exactly the first
`n` documents of the fully sorted matching set, converted; the sorted
set is ordered by the sort comparison (ascending puts the
lowest-ordered first), and flipping a single-key direction from
ascending (1) to descending (-1) exactly reverses the sorted order
when the key values are pairwise distinct. -/
theorem C5_sort_before_limit (store : String → String → List Doc)
    (query : List (String × BVal)) (cn dn : String)
    (s : List (String × Int)) (n : Int) (f : String)
    (hs : s ≠ []) (hn : n ≠ 0)
    (hdist : List.Pairwise
      (fun a b => bvalCmp (keyOf a f) (keyOf b f) ≠ .eq)
      ((store dn cn).filter (fun d => matchesFilter query d))) :
    (execute_mongodb_query (.respond store) query cn dn none (some n)
        (some s)
      = wrapConv ((mongoSort s ((store dn cn).filter
          (fun d => matchesFilter query d))).take n.natAbs)) ∧
    List.Pairwise (fun a b => docLeB s a b = true)
      (mongoSort s ((store dn cn).filter
        (fun d => matchesFilter query d))) ∧
    (mongoSort [(f, -1)] ((store dn cn).filter
        (fun d => matchesFilter query d))
      = (mongoSort [(f, 1)] ((store dn cn).filter
          (fun d => matchesFilter query d))).reverse) := by
  refine ⟨?_, ?_, ?_⟩
  · show wrapConv (pipelineDocs store query cn dn none (some n) (some s))
      = _
    unfold pipelineDocs
    rw [map_applyProjection_none, limitStage_some, if_neg hn,
      sortStage_some, if_neg hs]
  · exact sorted_insertionSortB (docLeB s)
      (fun a b => docLeB_total s a b)
      (fun a b c h1 h2 => docLeB_trans s a b c h1 h2) _
  · have hfun : docLeB [(f, -1)]
        = fun a b => docLeB [(f, 1)] b a :=
      funext fun a => funext fun b => docLeB_single_neg f a b
    show insertionSortB (docLeB [(f, -1)]) _ = _
    rw [hfun]
    exact insertionSortB_reverse (docLeB [(f, 1)])
      (fun a b => docLeB_total [(f, 1)] a b)
      (fun a b c h1 h2 => docLeB_trans [(f, 1)] a b c h1 h2) _
      (List.Pairwise.imp (fun h => docLeB_single_opp f _ _ h) hdist)

/-- C5 witness: descending sort on `Pack Quantity` with `limit = 2`
over the three-document sample store. -/
theorem C5_witness :
    (execute_mongodb_query (.respond sampleStore) [] "c" "d" none (some 2)
        (some [("Pack Quantity", -1)])
      = wrapConv ((mongoSort [("Pack Quantity", -1)]
          ((sampleStore "d" "c").filter
            (fun d => matchesFilter [] d))).take (2 : Int).natAbs)) ∧
    List.Pairwise
      (fun a b => docLeB [("Pack Quantity", -1)] a b = true)
      (mongoSort [("Pack Quantity", -1)] ((sampleStore "d" "c").filter
        (fun d => matchesFilter [] d))) ∧
    (mongoSort [("Pack Quantity", -1)] ((sampleStore "d" "c").filter
        (fun d => matchesFilter [] d))
      = (mongoSort [("Pack Quantity", 1)] ((sampleStore "d" "c").filter
          (fun d => matchesFilter [] d))).reverse) :=
  C5_sort_before_limit sampleStore [] "c" "d" [("Pack Quantity", -1)] 2
    "Pack Quantity" (by decide) (by decide) (by decide)
